import Mathlib

/-!
Shallow embedding of the SystemData repository (read_data.py, display_data.py).

Machine-level conventions:
* Python `int` is modelled by `Nat` (all quantities involved are non-negative:
  byte counts, pids, core counts, the uuid node identifier).
* Python `float` fields (percentages, frequencies) are modelled by `Rat`;
  no claim computes with them, they are only carried.
* Python `dict` (insertion-ordered, assignment replaces in place) is modelled
  by an association list with `dictInsert`.
* A fallible OS query is modelled by `Option`/`Except`; an exception that
  propagates is an `Except.error`.
* `datetime.now().isoformat()` is modelled by a logical clock value: each
  external call ticks the clock, and the timestamp field stores the instant
  at which `datetime.now()` was called.
-/

/-- Association-list lookup keyed on the first component (Python `dict[k]`). -/
def lookupKey {α β : Type} [DecidableEq α] : List (α × β) → α → Option β
  | [], _ => none
  | (k', v) :: m, k => if k' = k then some v else lookupKey m k

/-- Python `dict` assignment `m[k] = v`: replace in place when the key exists,
append otherwise (insertion order preserved). -/
def dictInsert {α β : Type} [DecidableEq α] (m : List (α × β)) (k : α) (v : β) :
    List (α × β) :=
  match lookupKey m k with
  | some _ => m.map (fun p => if p.1 = k then (k, v) else p)
  | none => m ++ [(k, v)]

/-- The keys of the association list, in order. -/
def keysOf {α β : Type} (m : List (α × β)) : List α := m.map Prod.fst

/-! ### Data model (`read_data.py` dataclasses / TypedDicts) -/

/-- `NetworkAddress` TypedDict. -/
structure NetworkAddress where
  address : String
  netmask : Option String
  family : String
deriving DecidableEq

/-- `CPUFrequency` TypedDict. -/
structure CPUFrequency where
  current : Rat
  min : Rat
  max : Rat
deriving DecidableEq

/-- `ProcessInfo` TypedDict.  The source annotates `username : str`, but at
runtime psutil's `process_iter(attrs, ad_value=None)` stores `None` for a
field whose read was denied, so the field is modelled as `Option String`. -/
structure ProcessInfo where
  pid : Nat
  name : String
  username : Option String
  memory_percent : Rat
deriving DecidableEq

/-- `DiskInfo` TypedDict. -/
structure DiskInfo where
  mountpoint : String
  filesystem : String
  total : Nat
  used : Nat
  free : Nat
  percent : Rat
deriving DecidableEq

/-- `PlatformData` dataclass. -/
structure PlatformData where
  system : String
  release : String
  version : String
  machine : String
  processor : String
  architecture : String × String
  python_version : String
deriving DecidableEq

/-- `NetworkData` dataclass. -/
structure NetworkData where
  hostname : String
  ip_address : String
  mac_address : String
  network_interfaces : List (String × List NetworkAddress)
deriving DecidableEq

/-- `CPUData` dataclass. -/
structure CPUData where
  physical_cores : Nat
  total_cores : Nat
  max_frequency : Option CPUFrequency
  current_usage : Rat
deriving DecidableEq

/-- `MemoryData` dataclass. -/
structure MemoryData where
  total : Nat
  available : Nat
  used : Nat
  percent : Rat
deriving DecidableEq

/-- `HardwareData` dataclass. -/
structure HardwareData where
  cpu : CPUData
  memory : MemoryData
  disk : List (String × DiskInfo)
deriving DecidableEq

/-- `ProcessData` dataclass. -/
structure ProcessData where
  total_processes : Nat
  running_processes : List ProcessInfo
deriving DecidableEq

/-- `SystemData` dataclass.  `timestamp` holds the logical capture instant
(the ISO-8601 rendering in the source is injective in the instant, so the
instant itself is kept). -/
structure SystemData where
  timestamp : Nat
  platform : PlatformData
  network : NetworkData
  hardware : HardwareData
  process : ProcessData
deriving DecidableEq

/-! ### MAC address rendering (`read_data.py` lines 164-165)

Source:
`':'.join(['{:02x}'.format((uuid.getnode() >> elements) & 0xff)
           for elements in range(0,2*6,2)][::-1])`
`range(0,2*6,2)` enumerates `0,2,4,6,8,10`, so the shifts move in 2-bit
steps, and the masked values are then reversed and colon-joined. -/

/-- One lower-case hexadecimal digit, as produced by Python's `x` format. -/
def hexDigitChar (n : Nat) : Char :=
  if n < 10 then Char.ofNat (48 + n) else Char.ofNat (87 + n)

/-- Python `'{:02x}'.format(n)` for `n < 256`: two lower-case hex digits. -/
def toHex2 (n : Nat) : String :=
  String.mk [hexDigitChar (n / 16 % 16), hexDigitChar (n % 16)]

/-- The source's MAC rendering: masked windows at shifts `0,2,4,6,8,10`
(2-bit steps), reversed, colon-joined. -/
def macAddress (node : Nat) : String :=
  String.intercalate ":"
    (((List.range 6).map (fun i => toHex2 ((node >>> (2 * i)) % 256))).reverse)

/-- Rendering following the spec's words (for comparison with `macAddress`):
the six bytes of the 48-bit node identifier as lower-case two-digit hex
octets, colon-joined, most significant octet first. -/
def macAddressSpec (node : Nat) : String :=
  String.intercalate ":"
    ((List.range 6).map (fun i => toHex2 ((node >>> (8 * (5 - i))) % 256)))

/-- Claim C4 (code bug): for node identifier `256` (= 0x000000000100) the
source renders `"00:01:04:10:40:00"`, while the six bytes rendered big-endian
are `"00:00:00:00:01:00"`; the `mac_address` field therefore does not hold the
MAC address of the node identifier. -/
theorem mac_address_formatting_bug :
    macAddress 256 = "00:01:04:10:40:00" ∧
    macAddressSpec 256 = "00:00:00:00:01:00" ∧
    macAddress 256 ≠ macAddressSpec 256 := by
  refine ⟨by decide, by decide, by decide⟩

/-! ### Association-list lemmas -/

theorem lookupKey_cons {α β : Type} [DecidableEq α] (a : α) (b : β) (m : List (α × β)) (k : α) :
    lookupKey ((a, b) :: m) k = if a = k then some b else lookupKey m k := rfl

theorem lookupKey_append_none {α β : Type} [DecidableEq α] {m : List (α × β)} {k : α}
    (l : List (α × β)) (h : lookupKey m k = none) :
    lookupKey (m ++ l) k = lookupKey l k := by
  induction m with
  | nil => rfl
  | cons p m ih =>
    obtain ⟨a, b⟩ := p
    rw [lookupKey_cons] at h
    rw [List.cons_append, lookupKey_cons]
    by_cases ha : a = k
    · rw [if_pos ha] at h
      exact Option.noConfusion h
    · rw [if_neg ha] at h
      rw [if_neg ha]
      exact ih h

theorem lookupKey_append_some {α β : Type} [DecidableEq α] {m : List (α × β)} {k : α} {v : β}
    (l : List (α × β)) (h : lookupKey m k = some v) :
    lookupKey (m ++ l) k = some v := by
  induction m with
  | nil => exact Option.noConfusion h
  | cons p m ih =>
    obtain ⟨a, b⟩ := p
    rw [lookupKey_cons] at h
    rw [List.cons_append, lookupKey_cons]
    by_cases ha : a = k
    · rw [if_pos ha] at h ⊢
      exact h
    · rw [if_neg ha] at h ⊢
      exact ih h

theorem lookupKey_replace_self {α β : Type} [DecidableEq α] (m : List (α × β)) (k : α) (v : β) :
    lookupKey (m.map (fun p => if p.1 = k then (k, v) else p)) k =
      (lookupKey m k).map (fun _ => v) := by
  induction m with
  | nil => rfl
  | cons p m ih =>
    obtain ⟨a, b⟩ := p
    by_cases ha : a = k
    · subst ha
      simp [lookupKey_cons, ih]
    · simp only [List.map_cons, if_neg ha, lookupKey_cons, if_neg ha, ih]

theorem lookupKey_replace_ne {α β : Type} [DecidableEq α] (m : List (α × β)) (k k' : α) (v : β)
    (h : k' ≠ k) :
    lookupKey (m.map (fun p => if p.1 = k then (k, v) else p)) k' = lookupKey m k' := by
  induction m with
  | nil => rfl
  | cons p m ih =>
    obtain ⟨a, b⟩ := p
    by_cases ha : a = k
    · subst ha
      have hak : ¬ a = k' := fun hc => h hc.symm
      simp [lookupKey_cons, if_neg hak, ih]
    · simp only [List.map_cons, if_neg ha, lookupKey_cons, ih]

theorem lookupKey_dictInsert_self {α β : Type} [DecidableEq α] (m : List (α × β)) (k : α) (v : β) :
    lookupKey (dictInsert m k v) k = some v := by
  unfold dictInsert
  cases hm : lookupKey m k with
  | none =>
    rw [lookupKey_append_none _ hm, lookupKey_cons, if_pos rfl]
  | some w =>
    rw [lookupKey_replace_self, hm, Option.map_some']

theorem lookupKey_dictInsert_ne {α β : Type} [DecidableEq α] (m : List (α × β)) (k k' : α) (v : β)
    (h : k' ≠ k) :
    lookupKey (dictInsert m k v) k' = lookupKey m k' := by
  unfold dictInsert
  cases hm : lookupKey m k with
  | none =>
    cases hm' : lookupKey m k' with
    | none =>
      rw [lookupKey_append_none _ hm', lookupKey_cons,
        if_neg (fun hc => h hc.symm)]
      rfl
    | some w => exact lookupKey_append_some _ hm'
  | some w => exact lookupKey_replace_ne m k k' v h

theorem keysOf_dictInsert {α β : Type} [DecidableEq α] (m : List (α × β)) (k : α) (v : β) :
    keysOf (dictInsert m k v) =
      match lookupKey m k with
      | some _ => keysOf m
      | none => keysOf m ++ [k] := by
  unfold dictInsert
  cases hm : lookupKey m k with
  | none => simp [keysOf]
  | some w =>
    simp only [keysOf, List.map_map]
    congr 1
    funext p
    by_cases h : p.1 = k <;> simp [h]

theorem lookupKey_eq_none_iff {α β : Type} [DecidableEq α] (m : List (α × β)) (k : α) :
    lookupKey m k = none ↔ k ∉ keysOf m := by
  induction m with
  | nil => simp [lookupKey, keysOf]
  | cons p m ih =>
    obtain ⟨a, b⟩ := p
    rw [lookupKey_cons]
    by_cases h : a = k
    · subst h
      simp [keysOf]
    · simp only [if_neg h, keysOf, List.map_cons, List.mem_cons, ih]
      constructor
      · rintro hk (rfl | hmem)
        · exact h rfl
        · exact hk hmem
      · intro hk hmem
        exact hk (Or.inr hmem)

theorem mem_keysOf_of_lookupKey {α β : Type} [DecidableEq α] (m : List (α × β)) (k : α) (v : β)
    (h : lookupKey m k = some v) : k ∈ keysOf m := by
  by_contra hk
  rw [← lookupKey_eq_none_iff] at hk
  rw [h] at hk
  exact Option.noConfusion hk

theorem keysOf_dictInsert_nodup {α β : Type} [DecidableEq α] (m : List (α × β)) (k : α) (v : β)
    (h : (keysOf m).Nodup) : (keysOf (dictInsert m k v)).Nodup := by
  rw [keysOf_dictInsert]
  cases hm : lookupKey m k with
  | some w => exact h
  | none =>
    rw [List.nodup_append]
    refine ⟨h, List.nodup_singleton k, ?_⟩
    intro a ha hb
    rw [List.mem_singleton] at hb
    subst hb
    exact (lookupKey_eq_none_iff m a).mp hm ha

theorem keysOf_dictInsert_toFinset {α β : Type} [DecidableEq α] (m : List (α × β)) (k : α) (v : β) :
    (keysOf (dictInsert m k v)).toFinset = insert k (keysOf m).toFinset := by
  rw [keysOf_dictInsert]
  cases hm : lookupKey m k with
  | some w =>
    have hk : k ∈ (keysOf m).toFinset := List.mem_toFinset.mpr (mem_keysOf_of_lookupKey m k w hm)
    simp [Finset.insert_eq_self.mpr hk]
  | none =>
    ext x
    simp [or_comm]

theorem length_dictInsert {α β : Type} [DecidableEq α] (m : List (α × β)) (k : α) (v : β) :
    (dictInsert m k v).length =
      match lookupKey m k with
      | some _ => m.length
      | none => m.length + 1 := by
  unfold dictInsert
  cases hm : lookupKey m k with
  | none => simp
  | some w => simp

/-! ### Disk collector (`read_data.py` lines 115-131)

`psutil.disk_partitions()` is modelled by a list of `Partition`;
`psutil.disk_usage(mountpoint)` by an oracle `String → Option DiskUsage`,
`none` standing for the query raising (the bare `except: continue`). -/

/-- One entry of `psutil.disk_partitions()`. -/
structure Partition where
  device : String
  mountpoint : String
  fstype : String
deriving DecidableEq

/-- The result of `psutil.disk_usage(...)`. -/
structure DiskUsage where
  total : Nat
  used : Nat
  free : Nat
  percent : Rat
deriving DecidableEq

/-- The `DiskInfo` dict literal built in the loop body. -/
def mkDiskInfo (p : Partition) (u : DiskUsage) : DiskInfo :=
  ⟨p.mountpoint, p.fstype, u.total, u.used, u.free, u.percent⟩

/-- The loop body of `get_disk_info`: on a successful usage query the device
is assigned in the dict, on failure the partition is skipped (`continue`). -/
def diskStep (usage : String → Option DiskUsage) (m : List (String × DiskInfo))
    (p : Partition) : List (String × DiskInfo) :=
  match usage p.mountpoint with
  | some u => dictInsert m p.device (mkDiskInfo p u)
  | none => m

/-- `SystemDataCollector.get_disk_info`. -/
def get_disk_info (parts : List Partition) (usage : String → Option DiskUsage) :
    List (String × DiskInfo) :=
  parts.foldl (diskStep usage) []

/-- The value held for device `d` after scanning the partitions: the info of
the last partition with that device whose usage query succeeded. -/
def diskUpd (usage : String → Option DiskUsage) (d : String) (acc : Option DiskInfo)
    (p : Partition) : Option DiskInfo :=
  if p.device = d then
    match usage p.mountpoint with
    | some u => some (mkDiskInfo p u)
    | none => acc
  else acc

theorem lookupKey_diskStep (usage : String → Option DiskUsage) (m : List (String × DiskInfo))
    (p : Partition) (d : String) :
    lookupKey (diskStep usage m p) d = diskUpd usage d (lookupKey m d) p := by
  unfold diskStep diskUpd
  cases hu : usage p.mountpoint with
  | none =>
    by_cases hd : p.device = d <;> simp [hd]
  | some u =>
    by_cases hd : p.device = d
    · rw [if_pos hd, hd, lookupKey_dictInsert_self]
    · rw [if_neg hd, lookupKey_dictInsert_ne]
      exact fun hc => hd hc.symm

theorem lookupKey_foldl_diskStep (usage : String → Option DiskUsage) (d : String) :
    ∀ (parts : List Partition) (m : List (String × DiskInfo)),
    lookupKey (parts.foldl (diskStep usage) m) d =
      parts.foldl (diskUpd usage d) (lookupKey m d) := by
  intro parts
  induction parts with
  | nil => intro m; rfl
  | cons p rest ih =>
    intro m
    rw [List.foldl_cons, List.foldl_cons, ih, lookupKey_diskStep]

/-- Lookup in the disk map is the last successful write for that device. -/
theorem lookupKey_get_disk_info (parts : List Partition)
    (usage : String → Option DiskUsage) (d : String) :
    lookupKey (get_disk_info parts usage) d = parts.foldl (diskUpd usage d) none := by
  unfold get_disk_info
  rw [lookupKey_foldl_diskStep]
  rfl

theorem foldl_diskUpd_skip (usage : String → Option DiskUsage) (d : String) :
    ∀ (parts : List Partition) (acc : Option DiskInfo),
    (∀ p ∈ parts, p.device ≠ d ∨ usage p.mountpoint = none) →
    parts.foldl (diskUpd usage d) acc = acc := by
  intro parts
  induction parts with
  | nil => intro acc _; rfl
  | cons p rest ih =>
    intro acc h
    rw [List.foldl_cons]
    have hstep : diskUpd usage d acc p = acc := by
      rcases h p (List.mem_cons_self p rest) with hd | hu
      · simp [diskUpd, hd]
      · simp [diskUpd, hu]
    rw [hstep]
    exact ih acc (fun q hq => h q (List.mem_cons_of_mem p hq))

theorem foldl_diskUpd_isSome_mono (usage : String → Option DiskUsage) (d : String) :
    ∀ (parts : List Partition) (acc : Option DiskInfo),
    acc.isSome = true → (parts.foldl (diskUpd usage d) acc).isSome = true := by
  intro parts
  induction parts with
  | nil => intro acc h; exact h
  | cons p rest ih =>
    intro acc h
    rw [List.foldl_cons]
    refine ih _ ?_
    unfold diskUpd
    by_cases hd : p.device = d
    · cases hu : usage p.mountpoint with
      | none => simp [hd, hu, h]
      | some u => simp [hd, hu]
    · simp [hd, h]

theorem foldl_diskUpd_isSome (usage : String → Option DiskUsage) (d : String) :
    ∀ (parts : List Partition) (acc : Option DiskInfo),
    (∃ p ∈ parts, p.device = d ∧ (usage p.mountpoint).isSome = true) →
    (parts.foldl (diskUpd usage d) acc).isSome = true := by
  intro parts
  induction parts with
  | nil =>
    rintro acc ⟨p, hp, -⟩
    exact absurd hp (List.not_mem_nil p)
  | cons q rest ih =>
    rintro acc ⟨p, hp, hd, hu⟩
    rw [List.foldl_cons]
    rcases List.mem_cons.mp hp with rfl | hmem
    · obtain ⟨u, hu'⟩ := Option.isSome_iff_exists.mp hu
      refine foldl_diskUpd_isSome_mono usage d rest _ ?_
      simp [diskUpd, hd, hu']
    · exact ih _ ⟨p, hmem, hd, hu⟩

theorem foldl_diskUpd_congr (usage usage2 : String → Option DiskUsage) (d : String) :
    ∀ (parts : List Partition) (acc : Option DiskInfo),
    (∀ p ∈ parts, p.device = d → usage2 p.mountpoint = usage p.mountpoint) →
    parts.foldl (diskUpd usage d) acc = parts.foldl (diskUpd usage2 d) acc := by
  intro parts
  induction parts with
  | nil => intro acc _; rfl
  | cons p rest ih =>
    intro acc h
    rw [List.foldl_cons, List.foldl_cons]
    have hstep : diskUpd usage d acc p = diskUpd usage2 d acc p := by
      unfold diskUpd
      by_cases hd : p.device = d
      · rw [h p (List.mem_cons_self p rest) hd]
      · simp [hd]
    rw [hstep]
    exact ih _ (fun q hq => h q (List.mem_cons_of_mem p hq))

theorem keysOf_foldl_diskStep_nodup (usage : String → Option DiskUsage) :
    ∀ (parts : List Partition) (m : List (String × DiskInfo)),
    (keysOf m).Nodup → (keysOf (parts.foldl (diskStep usage) m)).Nodup := by
  intro parts
  induction parts with
  | nil => intro m h; exact h
  | cons p rest ih =>
    intro m h
    rw [List.foldl_cons]
    refine ih _ ?_
    unfold diskStep
    cases hu : usage p.mountpoint with
    | none => exact h
    | some u => exact keysOf_dictInsert_nodup _ _ _ h

theorem keysOf_get_disk_info_nodup (parts : List Partition)
    (usage : String → Option DiskUsage) :
    (keysOf (get_disk_info parts usage)).Nodup :=
  keysOf_foldl_diskStep_nodup usage parts [] List.nodup_nil

/-- The devices recorded by the scan: those of partitions whose usage query
succeeded. -/
def succDevices (parts : List Partition) (usage : String → Option DiskUsage) : List String :=
  (parts.filter (fun p => (usage p.mountpoint).isSome)).map Partition.device

theorem keysOf_foldl_diskStep_toFinset (usage : String → Option DiskUsage) :
    ∀ (parts : List Partition) (m : List (String × DiskInfo)),
    (keysOf (parts.foldl (diskStep usage) m)).toFinset =
      (keysOf m).toFinset ∪ (succDevices parts usage).toFinset := by
  intro parts
  induction parts with
  | nil =>
    intro m
    simp [succDevices]
  | cons p rest ih =>
    intro m
    rw [List.foldl_cons]
    cases hu : usage p.mountpoint with
    | none =>
      have hstep : diskStep usage m p = m := by simp [diskStep, hu]
      rw [hstep, ih]
      have hfilter : succDevices (p :: rest) usage = succDevices rest usage := by
        simp [succDevices, List.filter_cons, hu]
      rw [hfilter]
    | some u =>
      have hstep : diskStep usage m p = dictInsert m p.device (mkDiskInfo p u) := by
        simp [diskStep, hu]
      rw [hstep, ih, keysOf_dictInsert_toFinset]
      have hfilter : succDevices (p :: rest) usage = p.device :: succDevices rest usage := by
        simp [succDevices, List.filter_cons, hu]
      rw [hfilter]
      ext x
      simp only [Finset.mem_union, Finset.mem_insert, List.mem_toFinset, List.mem_cons]
      tauto

theorem keysOf_get_disk_info_toFinset (parts : List Partition)
    (usage : String → Option DiskUsage) :
    (keysOf (get_disk_info parts usage)).toFinset = (succDevices parts usage).toFinset := by
  unfold get_disk_info
  rw [keysOf_foldl_diskStep_toFinset]
  simp [keysOf]

theorem length_get_disk_info (parts : List Partition) (usage : String → Option DiskUsage) :
    (get_disk_info parts usage).length = (succDevices parts usage).toFinset.card := by
  have h1 : (get_disk_info parts usage).length = (keysOf (get_disk_info parts usage)).length := by
    simp [keysOf]
  rw [h1, ← List.toFinset_card_of_nodup (keysOf_get_disk_info_nodup parts usage),
    keysOf_get_disk_info_toFinset]

/-- Claim C6: when the usage query fails for exactly the partitions of one
device `D` (`hiff`) and a second, all-succeeding enumeration (`usage2`) agrees
with the first everywhere else (`hagree`, `hall`), the scan omits `D`, leaves
every other device present and unchanged, and the map is exactly one entry
smaller than the all-succeed map; no error is surfaced (the function is total). -/
theorem disk_failure_omits_single_device
    (parts : List Partition) (usage usage2 : String → Option DiskUsage) (D : String)
    (hD : D ∈ parts.map Partition.device)
    (hiff : ∀ p ∈ parts, (p.device = D ↔ usage p.mountpoint = none))
    (hagree : ∀ p ∈ parts, p.device ≠ D → usage2 p.mountpoint = usage p.mountpoint)
    (hall : ∀ p ∈ parts, (usage2 p.mountpoint).isSome = true) :
    lookupKey (get_disk_info parts usage) D = none ∧
    (∀ dev, dev ≠ D →
      lookupKey (get_disk_info parts usage) dev = lookupKey (get_disk_info parts usage2) dev) ∧
    (∀ dev ∈ parts.map Partition.device, dev ≠ D →
      (lookupKey (get_disk_info parts usage) dev).isSome = true) ∧
    (get_disk_info parts usage).length + 1 = (get_disk_info parts usage2).length := by
  refine ⟨?_, ?_, ?_, ?_⟩
  · rw [lookupKey_get_disk_info]
    apply foldl_diskUpd_skip
    intro p hp
    by_cases hd : p.device = D
    · exact Or.inr ((hiff p hp).mp hd)
    · exact Or.inl hd
  · intro dev hdev
    rw [lookupKey_get_disk_info, lookupKey_get_disk_info]
    apply foldl_diskUpd_congr
    intro p hp hd
    exact hagree p hp (by rw [hd]; exact hdev)
  · intro dev hdevmem hdev
    rw [lookupKey_get_disk_info]
    obtain ⟨p0, hp0, hdev0⟩ := List.mem_map.mp hdevmem
    apply foldl_diskUpd_isSome
    refine ⟨p0, hp0, hdev0, ?_⟩
    cases hu : usage p0.mountpoint with
    | none => exact absurd (hdev0 ▸ (hiff p0 hp0).mpr hu) hdev
    | some u => rfl
  · have hset1 : (succDevices parts usage).toFinset =
        ((parts.map Partition.device).toFinset).erase D := by
      ext x
      simp only [succDevices, List.mem_toFinset, List.mem_map, List.mem_filter,
        Finset.mem_erase]
      constructor
      · rintro ⟨p, ⟨hp, hsome⟩, rfl⟩
        refine ⟨?_, ⟨p, hp, rfl⟩⟩
        intro hc
        rw [(hiff p hp).mp hc] at hsome
        exact Bool.noConfusion hsome
      · rintro ⟨hne, p, hp, rfl⟩
        refine ⟨p, ⟨hp, ?_⟩, rfl⟩
        cases hu : usage p.mountpoint with
        | none => exact absurd ((hiff p hp).mpr hu) hne
        | some u => rfl
    have hset2 : (succDevices parts usage2).toFinset = (parts.map Partition.device).toFinset := by
      unfold succDevices
      rw [List.filter_eq_self.mpr hall]
    rw [length_get_disk_info, length_get_disk_info, hset1, hset2]
    exact Finset.card_erase_add_one (List.mem_toFinset.mpr hD)

/-- Concrete partitions for the disk-claim witnesses. -/
def parts6 : List Partition :=
  [⟨"/dev/sda1", "/", "ext4"⟩, ⟨"/dev/sdb1", "/data", "ext4"⟩, ⟨"/dev/sdc1", "/mnt", "vfat"⟩]

/-- A usage oracle failing exactly on the mountpoint of `/dev/sdb1`. -/
def usageFail : String → Option DiskUsage :=
  fun mp => if mp = "/data" then none else some ⟨100, 50, 50, 50⟩

/-- The all-succeed variant of `usageFail`. -/
def usageOk : String → Option DiskUsage :=
  fun mp => if mp = "/data" then some ⟨8, 4, 4, 50⟩ else usageFail mp

/-- Witness for C6 at a concrete three-partition enumeration. -/
theorem disk_failure_omits_witness :
    lookupKey (get_disk_info parts6 usageFail) "/dev/sdb1" = none ∧
    lookupKey (get_disk_info parts6 usageFail) "/dev/sda1" =
      lookupKey (get_disk_info parts6 usageOk) "/dev/sda1" ∧
    (lookupKey (get_disk_info parts6 usageFail) "/dev/sda1").isSome = true ∧
    (get_disk_info parts6 usageFail).length + 1 = (get_disk_info parts6 usageOk).length := by
  have h := disk_failure_omits_single_device parts6 usageFail usageOk "/dev/sdb1"
    (by decide) (by decide) (by decide) (by decide)
  exact ⟨h.1, h.2.1 "/dev/sda1" (by decide), h.2.2.1 "/dev/sda1" (by decide) (by decide), h.2.2.2⟩

/-- Claim C10: with exactly two partitions sharing device `dv`, both usage
queries succeeding, the map keeps a single entry for `dv` holding the data of
the later-enumerated partition `p2` (the earlier entry is overwritten). -/
theorem duplicate_device_last_wins
    (l1 l2 l3 : List Partition) (p1 p2 : Partition)
    (usage : String → Option DiskUsage) (dv : String) (u2 : DiskUsage)
    (h1 : p1.device = dv) (h2 : p2.device = dv)
    (hother : ∀ p ∈ l1 ++ l2 ++ l3, p.device ≠ dv)
    (hu1 : (usage p1.mountpoint).isSome = true)
    (hu2 : usage p2.mountpoint = some u2) :
    lookupKey (get_disk_info (l1 ++ p1 :: (l2 ++ p2 :: l3)) usage) dv =
      some (mkDiskInfo p2 u2) ∧
    (keysOf (get_disk_info (l1 ++ p1 :: (l2 ++ p2 :: l3)) usage)).count dv = 1 := by
  obtain ⟨u1, hu1'⟩ := Option.isSome_iff_exists.mp hu1
  have hl1 : ∀ p ∈ l1, p.device ≠ dv := fun p hp => hother p (by simp [hp])
  have hl2 : ∀ p ∈ l2, p.device ≠ dv := fun p hp => hother p (by simp [hp])
  have hl3 : ∀ p ∈ l3, p.device ≠ dv := fun p hp => hother p (by simp [hp])
  have hlook : lookupKey (get_disk_info (l1 ++ p1 :: (l2 ++ p2 :: l3)) usage) dv =
      some (mkDiskInfo p2 u2) := by
    rw [lookupKey_get_disk_info, List.foldl_append, List.foldl_cons, List.foldl_append,
      List.foldl_cons]
    rw [foldl_diskUpd_skip usage dv l1 none (fun p hp => Or.inl (hl1 p hp))]
    have hstep1 : diskUpd usage dv none p1 = some (mkDiskInfo p1 u1) := by
      simp [diskUpd, h1, hu1']
    rw [hstep1, foldl_diskUpd_skip usage dv l2 _ (fun p hp => Or.inl (hl2 p hp))]
    have hstep2 : diskUpd usage dv (some (mkDiskInfo p1 u1)) p2 = some (mkDiskInfo p2 u2) := by
      simp [diskUpd, h2, hu2]
    rw [hstep2, foldl_diskUpd_skip usage dv l3 _ (fun p hp => Or.inl (hl3 p hp))]
  refine ⟨hlook, ?_⟩
  have hmem : dv ∈ keysOf (get_disk_info (l1 ++ p1 :: (l2 ++ p2 :: l3)) usage) :=
    mem_keysOf_of_lookupKey _ _ _ hlook
  have hnd := keysOf_get_disk_info_nodup (l1 ++ p1 :: (l2 ++ p2 :: l3)) usage
  have hle := List.nodup_iff_count_le_one.mp hnd dv
  have hge := List.count_pos_iff.mpr hmem
  omega

/-- Witness for C10: two partitions with device `/dev/sda`, the later one
mounted at `/new`, both queries succeeding. -/
theorem duplicate_device_witness :
    lookupKey
      (get_disk_info
        ([] ++ ⟨"/dev/sda", "/old", "ext4"⟩ ::
          ([⟨"/dev/sdx", "/x", "ext4"⟩] ++ ⟨"/dev/sda", "/new", "btrfs"⟩ :: []))
        usageOk) "/dev/sda" =
      some (mkDiskInfo ⟨"/dev/sda", "/new", "btrfs"⟩ ⟨100, 50, 50, 50⟩) ∧
    (keysOf
      (get_disk_info
        ([] ++ ⟨"/dev/sda", "/old", "ext4"⟩ ::
          ([⟨"/dev/sdx", "/x", "ext4"⟩] ++ ⟨"/dev/sda", "/new", "btrfs"⟩ :: []))
        usageOk)).count "/dev/sda" = 1 :=
  duplicate_device_last_wins [] [⟨"/dev/sdx", "/x", "ext4"⟩] []
    ⟨"/dev/sda", "/old", "ext4"⟩ ⟨"/dev/sda", "/new", "btrfs"⟩ usageOk "/dev/sda"
    ⟨100, 50, 50, 50⟩ (by decide) (by decide) (by decide) (by decide) (by decide)

/-! ### Process collector (`read_data.py` lines 133-146)

`psutil.process_iter(['pid','name','username','memory_percent'])` is modelled
by a list of `ProcEntry`.  A process that vanishes / denies access / turns
zombie during enumeration (`vanished = true`) contributes no entry: psutil's
iterator and the `except (NoSuchProcess, AccessDenied, ZombieProcess): pass`
both drop it.  For a surviving process, a field whose retrieval was denied is
already substituted by psutil's `ad_value` default `None` inside `proc.info`,
hence `username : Option String`. -/

/-- One item of the process iteration. -/
structure ProcEntry where
  pid : Nat
  name : String
  username : Option String
  memory_percent : Rat
  vanished : Bool
deriving DecidableEq

/-- `SystemDataCollector.get_running_processes`. -/
def get_running_processes (entries : List ProcEntry) : List ProcessInfo :=
  entries.filterMap (fun e =>
    if e.vanished then none
    else some ⟨e.pid, e.name, e.username, e.memory_percent⟩)

/-- Claim C8 (code bug): a surviving process whose username retrieval was
denied is emitted with `username = None` (serialized as `null`), not the empty
string; the `username: str` declaration of `ProcessInfo` is violated at
runtime and no conversion to `""` exists in the loop body. -/
theorem username_absent_is_none :
    (get_running_processes [⟨42, "daemon", none, 0, false⟩]).map ProcessInfo.username =
      [none] ∧
    (none : Option String) ≠ some "" := by
  exact ⟨rfl, by decide⟩

/-! ### Network interface collector (`read_data.py` lines 89-101)

`psutil.net_if_addrs()` is modelled by a list of `(interface name, address
entries)`.  A malformed entry is one whose field access raises; the loop body
of `get_network_interfaces` contains no try/except, so such an exception
propagates out of the whole function. -/

/-- One address entry of an interface, possibly malformed. -/
inductive AddrEntry where
  | wellFormed (address : String) (netmask : Option String) (family : String)
  | malformed
deriving DecidableEq

/-- Reading the three attributes of one entry; a malformed entry raises. -/
def readAddr : AddrEntry → Except String NetworkAddress
  | AddrEntry.wellFormed a n f => Except.ok ⟨a, n, f⟩
  | AddrEntry.malformed => Except.error "malformed interface entry"

/-- `SystemDataCollector.get_network_interfaces`: build the dict interface by
interface; any raise inside the loop aborts the function. -/
def get_network_interfaces (ifs : List (String × List AddrEntry)) :
    Except String (List (String × List NetworkAddress)) :=
  ifs.foldlM (fun m p => (p.2.mapM readAddr).map (fun l => dictInsert m p.1 l)) []

theorem mapM_readAddr_malformed (addrs : List AddrEntry)
    (h : AddrEntry.malformed ∈ addrs) :
    addrs.mapM readAddr = Except.error "malformed interface entry" := by
  induction addrs with
  | nil => exact absurd h (List.not_mem_nil _)
  | cons a rest ih =>
    rcases List.mem_cons.mp h with rfl | hmem
    · rfl
    · cases a with
      | malformed => rfl
      | wellFormed x n f =>
        rw [List.mapM_cons, ih hmem]
        rfl

theorem foldlM_interfaces_error (ifs : List (String × List AddrEntry))
    (nm : String) (addrs : List AddrEntry)
    (hmem : (nm, addrs) ∈ ifs) (hbad : AddrEntry.malformed ∈ addrs) :
    ∀ m, ∃ e, ifs.foldlM
        (fun m p => (p.2.mapM readAddr).map (fun l => dictInsert m p.1 l)) m =
      Except.error e := by
  induction ifs with
  | nil => exact absurd hmem (List.not_mem_nil _)
  | cons q rest ih =>
    intro m
    rcases List.mem_cons.mp hmem with rfl | hmem'
    · refine ⟨"malformed interface entry", ?_⟩
      rw [List.foldlM_cons]
      rw [mapM_readAddr_malformed addrs hbad]
      rfl
    · rw [List.foldlM_cons]
      cases hq : q.2.mapM readAddr with
      | error e => exact ⟨e, rfl⟩
      | ok l =>
        obtain ⟨e, he⟩ := ih hmem' (dictInsert m q.1 l)
        exact ⟨e, he⟩

/-- Claim C7, amended: a malformed interface entry is not skipped — it aborts
the whole network enumeration with an error (which escalates to a cycle-level
failure), because the loop has no per-entry error handling. -/
theorem malformed_interface_aborts (ifs : List (String × List AddrEntry))
    (nm : String) (addrs : List AddrEntry)
    (hmem : (nm, addrs) ∈ ifs) (hbad : AddrEntry.malformed ∈ addrs) :
    ∃ e, get_network_interfaces ifs = Except.error e :=
  foldlM_interfaces_error ifs nm addrs hmem hbad []

/-- Counterexample to C7 as stated: an enumeration with one malformed entry
between two well-formed interfaces returns an error, not a map covering the
well-formed interfaces. -/
theorem interface_enumeration_not_skipping :
    get_network_interfaces
      [("eth0", [AddrEntry.wellFormed "10.0.0.1" none "AddressFamily.AF_INET"]),
       ("bad", [AddrEntry.malformed]),
       ("eth1", [AddrEntry.wellFormed "10.0.0.2" none "AddressFamily.AF_INET"])] =
      Except.error "malformed interface entry" ∧
    get_network_interfaces
      [("eth0", [AddrEntry.wellFormed "10.0.0.1" none "AddressFamily.AF_INET"]),
       ("eth1", [AddrEntry.wellFormed "10.0.0.2" none "AddressFamily.AF_INET"])] =
      Except.ok
        [("eth0", [⟨"10.0.0.1", none, "AddressFamily.AF_INET"⟩]),
         ("eth1", [⟨"10.0.0.2", none, "AddressFamily.AF_INET"⟩])] := by
  exact ⟨rfl, rfl⟩

/-- Witness for the amended C7 at the same concrete enumeration. -/
theorem malformed_interface_witness :
    ∃ e, get_network_interfaces
      [("eth0", [AddrEntry.wellFormed "10.0.0.1" none "AddressFamily.AF_INET"]),
       ("bad", [AddrEntry.malformed]),
       ("eth1", [AddrEntry.wellFormed "10.0.0.2" none "AddressFamily.AF_INET"])] =
      Except.error e :=
  malformed_interface_aborts _ "bad" [AddrEntry.malformed] (by decide) (by decide)

/-! ### The collection cycle (`SystemDataCollector.collect`, lines 148-201)

Every external call ticks a logical clock and is recorded in a trace, so that
the order of OS queries inside one cycle is observable.  The per-partition
`disk_usage` calls and the per-process reads are folded into one composite
query each (`diskPartitions`, `processIter`); only the relative order of the
collectors and of `datetime.now()` matters to the claims.  The two fallible
points are `socket.gethostbyname` (may raise, e.g. `socket.gaierror`) and the
interface conversion loop (a malformed entry raises, see C7). -/

/-- Tags for the external calls made during one cycle. -/
inductive QTag where
  | system | release | version | machine | processor | architecture
  | gethostname | gethostbyname | getnode | netIfAddrs
  | cpuCountPhysical | cpuCountLogical | cpuFreq | cpuPercent
  | virtualMemory | diskPartitions | pids | processIter | now
deriving DecidableEq

/-- Clock plus trace of (tag, instant of the call). -/
abbrev Trace := Nat × List (QTag × Nat)

/-- One external call: the call happens at instant `s.1`. -/
def qstep (tag : QTag) (s : Trace) : Trace :=
  (s.1 + 1, s.2 ++ [(tag, s.1)])

/-- The host oracle: the answers the OS gives during the cycle.  (Answers are
taken constant over the cycle; the clock only orders the calls.) -/
structure Host where
  system : String
  release : String
  version : String
  machine : String
  processor : String
  archBits : String
  archLinkage : String
  pythonVersion : String
  hostname : String
  gethostbyname : String → Except String String
  node : Nat
  ifaces : List (String × List AddrEntry)
  cpuPhysical : Nat
  cpuLogical : Nat
  cpuFreq : Option CPUFrequency
  cpuPercent : Rat
  memTotal : Nat
  memAvailable : Nat
  memUsed : Nat
  memPercent : Rat
  partitions : List Partition
  usage : String → Option DiskUsage
  pidsList : List Nat
  procEntries : List ProcEntry

/-- `SystemDataCollector.get_cpu_frequency`: the try/except turns a failing
`psutil.cpu_freq()` into `None`. -/
def get_cpu_frequency (q : Option CPUFrequency) : Option CPUFrequency :=
  match q with
  | some f => some ⟨f.current, f.min, f.max⟩
  | none => none

/-- `SystemDataCollector.collect`, statement by statement in source order.
`datetime.now().isoformat()` is the last external call, made while building
the returned `SystemData`. -/
def collectE (h : Host) (s0 : Trace) : Except String SystemData × Trace :=
  let s := qstep QTag.system s0
  let s := qstep QTag.release s
  let s := qstep QTag.version s
  let s := qstep QTag.machine s
  let s := qstep QTag.processor s
  let s := qstep QTag.architecture s
  let platform_data : PlatformData :=
    ⟨h.system, h.release, h.version, h.machine, h.processor,
      (h.archBits, h.archLinkage), h.pythonVersion⟩
  let s := qstep QTag.gethostname s
  let hostname := h.hostname
  let s := qstep QTag.gethostname s
  let s := qstep QTag.gethostbyname s
  match h.gethostbyname h.hostname with
  | Except.error e => (Except.error e, s)
  | Except.ok ip =>
    let s := qstep QTag.getnode s
    let mac := macAddress h.node
    let s := qstep QTag.netIfAddrs s
    match get_network_interfaces h.ifaces with
    | Except.error e => (Except.error e, s)
    | Except.ok ifmap =>
      let network_data : NetworkData := ⟨hostname, ip, mac, ifmap⟩
      let s := qstep QTag.cpuCountPhysical s
      let s := qstep QTag.cpuCountLogical s
      let s := qstep QTag.cpuFreq s
      let s := qstep QTag.cpuPercent s
      let cpu_data : CPUData :=
        ⟨h.cpuPhysical, h.cpuLogical, get_cpu_frequency h.cpuFreq, h.cpuPercent⟩
      let s := qstep QTag.virtualMemory s
      let memory_data : MemoryData := ⟨h.memTotal, h.memAvailable, h.memUsed, h.memPercent⟩
      let s := qstep QTag.diskPartitions s
      let hardware_data : HardwareData :=
        ⟨cpu_data, memory_data, get_disk_info h.partitions h.usage⟩
      let s := qstep QTag.pids s
      let s := qstep QTag.processIter s
      let process_data : ProcessData :=
        ⟨h.pidsList.length, get_running_processes h.procEntries⟩
      let tsTime := s.1
      let s := qstep QTag.now s
      (Except.ok ⟨tsTime, platform_data, network_data, hardware_data, process_data⟩, s)

/-- Whether the cycle returned a snapshot. -/
def isOkE : Except String SystemData → Bool
  | Except.ok _ => true
  | Except.error _ => false

/-- Projection to the process sub-record of a successful cycle. -/
def okProcess : Except String SystemData → Option ProcessData
  | Except.ok sd => some sd.process
  | Except.error _ => none

/-- Projection to the timestamp of a successful cycle. -/
def okTimestamp : Except String SystemData → Option Nat
  | Except.ok sd => some sd.timestamp
  | Except.error _ => none

/-- `SystemDataManager.read_system_data`: the try/except around the cycle.
(The source returns `asdict(system_data)` resp. an error dict; the sum is
modelled by `Except`, `asdict` being a field-for-field rendering.) -/
def read_system_data (h : Host) (s0 : Trace) : Except String SystemData × Trace :=
  match collectE h s0 with
  | (Except.ok sd, s) => (Except.ok sd, s)
  | (Except.error e, s) => (Except.error ("Failed to collect system data: " ++ e), s)

/-- A concrete well-formed host used by the witnesses and counterexamples. -/
def host0 : Host where
  system := "Linux"
  release := "6.1.0"
  version := "#1 SMP"
  machine := "x86_64"
  processor := "x86_64"
  archBits := "64bit"
  archLinkage := "ELF"
  pythonVersion := "3.11.2"
  hostname := "testhost"
  gethostbyname := fun _ => Except.ok "127.0.1.1"
  node := 256
  ifaces := [("lo", [AddrEntry.wellFormed "127.0.0.1" (some "255.0.0.0")
    "AddressFamily.AF_INET"])]
  cpuPhysical := 4
  cpuLogical := 8
  cpuFreq := some ⟨2400, 800, 4200⟩
  cpuPercent := 42
  memTotal := 16000000000
  memAvailable := 8000000000
  memUsed := 8000000000
  memPercent := 50
  partitions := [⟨"/dev/sda1", "/", "ext4"⟩]
  usage := fun _ => some ⟨100, 50, 50, 50⟩
  pidsList := [1, 7, 42]
  procEntries := [⟨1, "init", some "root", 1, false⟩, ⟨7, "sshd", some "root", 0, false⟩,
    ⟨42, "ghost", none, 0, true⟩]

/-- Claim C3, amended: in every successful cycle the capture timestamp is
taken exactly once — as the single, final external call, after all four
category collectors — so it upper-bounds (not lower-bounds) every call of the
cycle. -/
theorem timestamp_last_and_unique (h : Host) (t0 : Nat)
    (hok : isOkE (collectE h (t0, [])).1 = true) :
    okTimestamp (collectE h (t0, [])).1 = some (t0 + 19) ∧
    (∃ pre, (collectE h (t0, [])).2.2 = pre ++ [(QTag.now, t0 + 19)] ∧
      ∀ e ∈ pre, e.1 ≠ QTag.now) ∧
    (∀ e ∈ (collectE h (t0, [])).2.2, e.2 ≤ t0 + 19) := by
  cases hgb : h.gethostbyname h.hostname with
  | error e =>
    exfalso
    simp [collectE, qstep, hgb, isOkE] at hok
  | ok ip =>
    cases hni : get_network_interfaces h.ifaces with
    | error e2 =>
      exfalso
      simp [collectE, qstep, hgb, hni, isOkE] at hok
    | ok ifmap =>
      have htr : (collectE h (t0, [])).2.2 =
          [(QTag.system, t0), (QTag.release, t0+1), (QTag.version, t0+2),
           (QTag.machine, t0+3), (QTag.processor, t0+4), (QTag.architecture, t0+5),
           (QTag.gethostname, t0+6), (QTag.gethostname, t0+7), (QTag.gethostbyname, t0+8),
           (QTag.getnode, t0+9), (QTag.netIfAddrs, t0+10), (QTag.cpuCountPhysical, t0+11),
           (QTag.cpuCountLogical, t0+12), (QTag.cpuFreq, t0+13), (QTag.cpuPercent, t0+14),
           (QTag.virtualMemory, t0+15), (QTag.diskPartitions, t0+16), (QTag.pids, t0+17),
           (QTag.processIter, t0+18), (QTag.now, t0+19)] := by
        simp [collectE, qstep, hgb, hni]
      refine ⟨?_, ⟨?_, ?_, ?_⟩, ?_⟩
      · simp [collectE, qstep, hgb, hni, okTimestamp]
      · exact [(QTag.system, t0), (QTag.release, t0+1), (QTag.version, t0+2),
          (QTag.machine, t0+3), (QTag.processor, t0+4), (QTag.architecture, t0+5),
          (QTag.gethostname, t0+6), (QTag.gethostname, t0+7), (QTag.gethostbyname, t0+8),
          (QTag.getnode, t0+9), (QTag.netIfAddrs, t0+10), (QTag.cpuCountPhysical, t0+11),
          (QTag.cpuCountLogical, t0+12), (QTag.cpuFreq, t0+13), (QTag.cpuPercent, t0+14),
          (QTag.virtualMemory, t0+15), (QTag.diskPartitions, t0+16), (QTag.pids, t0+17),
          (QTag.processIter, t0+18)]
      · rw [htr]
        rfl
      · intro e he
        fin_cases he <;> simp
      · intro e he
        rw [htr] at he
        fin_cases he <;> simp

/-- Counterexample to C3 as stated: at a concrete host the first external
call of the cycle (the platform collector's query, at instant 0) precedes the
timestamp call (instant 19), so the timestamp does not lower-bound the
collector calls. -/
theorem timestamp_not_before_collectors :
    (collectE host0 (0, [])).2.2.head? = some (QTag.system, 0) ∧
    okTimestamp (collectE host0 (0, [])).1 = some 19 ∧
    ¬ (∀ e ∈ (collectE host0 (0, [])).2.2, 19 ≤ e.2) := by
  exact ⟨rfl, rfl, by decide⟩

/-- Witness for the amended C3 at the concrete host. -/
theorem timestamp_last_witness :
    okTimestamp (collectE host0 (0, [])).1 = some (0 + 19) ∧
    (∃ pre, (collectE host0 (0, [])).2.2 = pre ++ [(QTag.now, 0 + 19)] ∧
      ∀ e ∈ pre, e.1 ≠ QTag.now) ∧
    (∀ e ∈ (collectE host0 (0, [])).2.2, e.2 ≤ 0 + 19) :=
  timestamp_last_and_unique host0 0 (by decide)

/-- Claim C5: the Manager's collection either returns a snapshot — complete
by construction: the `SystemData` record carries all four sub-records and the
timestamp, there is no partial constructor — or an error value prefixed with
the human-readable cause; every failure of the cycle is caught. -/
theorem read_system_data_total (h : Host) (s0 : Trace) :
    (∃ sd, (read_system_data h s0).1 = Except.ok sd ∧
      sd = ⟨sd.timestamp, sd.platform, sd.network, sd.hardware, sd.process⟩) ∨
    (∃ cause, (read_system_data h s0).1 =
      Except.error ("Failed to collect system data: " ++ cause)) := by
  unfold read_system_data
  rcases hc : collectE h s0 with ⟨r, s⟩
  cases r with
  | ok sd => exact Or.inl ⟨sd, rfl, rfl⟩
  | error e => exact Or.inr ⟨e, rfl⟩

/-- Claim C9: `total_processes` comes from the `psutil.pids()` pass alone,
and the detail list from the separate `process_iter` pass, so a process `P`
that vanishes mid-scan is missing from `running_processes` while still being
counted; the two can legitimately disagree. -/
theorem total_processes_independent_pass (h : Host) (s0 : Trace) (P : Nat)
    (hp : P ∈ h.pidsList)
    (hv : ∀ e ∈ h.procEntries, e.pid = P → e.vanished = true)
    (hok : isOkE (collectE h s0).1 = true) :
    okProcess (collectE h s0).1 =
      some ⟨h.pidsList.length, get_running_processes h.procEntries⟩ ∧
    P ∉ (get_running_processes h.procEntries).map ProcessInfo.pid := by
  constructor
  · cases hgb : h.gethostbyname h.hostname with
    | error e =>
      exfalso
      simp [collectE, qstep, hgb, isOkE] at hok
    | ok ip =>
      cases hni : get_network_interfaces h.ifaces with
      | error e2 =>
        exfalso
        simp [collectE, qstep, hgb, hni, isOkE] at hok
      | ok ifmap =>
        simp [collectE, qstep, hgb, hni, okProcess]
  · intro hmem
    obtain ⟨pi, hpi, hpid⟩ := List.mem_map.mp hmem
    obtain ⟨e, he, hfe⟩ := List.mem_filterMap.mp hpi
    by_cases hvan : e.vanished = true
    · rw [if_pos hvan] at hfe
      exact Option.noConfusion hfe
    · rw [if_neg hvan] at hfe
      have hback := Option.some.inj hfe
      subst hback
      exact hvan (hv e he hpid)

/-- Witness for C9: at the concrete host, pid 42 vanished mid-scan: it is
counted (`total_processes = 3`) but absent from the two-entry detail list. -/
theorem total_processes_witness :
    okProcess (collectE host0 (0, [])).1 =
      some ⟨3, get_running_processes host0.procEntries⟩ ∧
    (42 : Nat) ∉ (get_running_processes host0.procEntries).map ProcessInfo.pid ∧
    (get_running_processes host0.procEntries).length = 2 ∧ (3 : Nat) ≠ 2 := by
  have h := total_processes_independent_pass host0 (0, []) 42 (by decide) (by decide)
    (by decide)
  exact ⟨h.1, h.2, by decide, by decide⟩

/-! ### Refresh scheduler (`display_data.py` lines 186-258)

`SystemMonitorApp` runs on a single-threaded cooperative event loop.
`refresh_data` is an `async def` containing no `await` before or during the
collection (`read_system_data` is a synchronous call), so one handler runs to
completion before the next queued event is handled.  Events (timer fires,
key presses) carry an arrival instant; an event arriving while a handler is
still running is processed afterwards, at `max` of its arrival instant and
the instant the loop becomes free.  `cycles` journals the execution window
`(start, end)` of each `collect()` call. -/

/-- The three inputs of the app: `set_interval` fire, key `r`, key `t`. -/
inductive Ev where
  | timer | manual | toggle
deriving DecidableEq

/-- The app state: the loop clock, the `auto_refresh` reactive flag, the
published snapshots, the notified errors, and the collect windows. -/
structure LoopState where
  now : Nat
  auto_refresh : Bool
  published : List SystemData
  errors : List String
  cycles : List (Nat × Nat)
deriving DecidableEq

/-- `SystemMonitorApp.refresh_data`: returns immediately unless
`auto_refresh` is set; otherwise runs one blocking collection and publishes
the snapshot (or notifies the error). -/
def refresh_data (h : Host) (st : LoopState) : LoopState :=
  if st.auto_refresh = false then st
  else
    match read_system_data h (st.now, []) with
    | (Except.ok sd, s) =>
      { st with
          now := s.1
          published := st.published ++ [sd]
          cycles := st.cycles ++ [(st.now, s.1)] }
    | (Except.error e, s) =>
      { st with
          now := s.1
          errors := st.errors ++ [e]
          cycles := st.cycles ++ [(st.now, s.1)] }

/-- `SystemMonitorApp.action_refresh` (key `r`): delegates to `refresh_data`. -/
def action_refresh (h : Host) (st : LoopState) : LoopState :=
  refresh_data h st

/-- `SystemMonitorApp.action_toggle_refresh` (key `t`). -/
def action_toggle_refresh (st : LoopState) : LoopState :=
  { st with auto_refresh := !st.auto_refresh }

/-- Dispatch of one event, as wired by `set_interval` and `BINDINGS`. -/
def handle (h : Host) (st : LoopState) : Ev → LoopState
  | Ev.timer => refresh_data h st
  | Ev.manual => action_refresh h st
  | Ev.toggle => action_toggle_refresh st

/-- The serialized event loop over a schedule of (arrival instant, event):
each handler runs atomically; a queued event starts no earlier than its
arrival and no earlier than the end of the previous handler. -/
def runLoop (h : Host) : List (Nat × Ev) → LoopState → LoopState
  | [], st => st
  | (arr, e) :: rest, st => runLoop h rest (handle h { st with now := max st.now arr } e)

/-- The state after `__init__`: `auto_refresh = reactive(True)`, clock 0. -/
def initState : LoopState := ⟨0, true, [], [], []⟩

theorem collectE_clock_mono (h : Host) (t0 : Nat) (log : List (QTag × Nat)) :
    t0 ≤ (collectE h (t0, log)).2.1 := by
  cases hgb : h.gethostbyname h.hostname with
  | error e =>
    simp only [collectE, qstep, hgb]
    omega
  | ok ip =>
    cases hni : get_network_interfaces h.ifaces with
    | error e2 =>
      simp only [collectE, qstep, hgb, hni]
      omega
    | ok ifmap =>
      simp only [collectE, qstep, hgb, hni]
      omega

theorem read_system_data_snd (h : Host) (s0 : Trace) :
    (read_system_data h s0).2 = (collectE h s0).2 := by
  unfold read_system_data
  rcases hc : collectE h s0 with ⟨r, s⟩
  cases r <;> rfl

/-- The hosts on which a cycle succeeds: name resolution works and every
interface entry is well-formed. -/
def wfHost (h : Host) : Prop :=
  (∃ ip, h.gethostbyname h.hostname = Except.ok ip) ∧
  (∃ m, get_network_interfaces h.ifaces = Except.ok m)

theorem collectE_isOk_of_wf (h : Host) (hwf : wfHost h) (s0 : Trace) :
    ∃ sd, (collectE h s0).1 = Except.ok sd := by
  obtain ⟨⟨ip, hip⟩, ⟨m, hm⟩⟩ := hwf
  obtain ⟨t0, log⟩ := s0
  cases hc : (collectE h (t0, log)).1 with
  | ok sd => exact ⟨sd, rfl⟩
  | error e =>
    exfalso
    simp [collectE, qstep, hip, hm] at hc

theorem read_system_data_isOk_of_wf (h : Host) (hwf : wfHost h) (s0 : Trace) :
    ∃ sd, read_system_data h s0 = (Except.ok sd, (collectE h s0).2) := by
  obtain ⟨sd, hsd⟩ := collectE_isOk_of_wf h hwf s0
  refine ⟨sd, ?_⟩
  unfold read_system_data
  have hpair : collectE h s0 = (Except.ok sd, (collectE h s0).2) := by
    rw [← hsd]
  rw [hpair]

theorem refresh_data_cycles_inv (h : Host) (st : LoopState)
    (h1 : ∀ c ∈ st.cycles, c.2 ≤ st.now)
    (h2 : List.Pairwise (fun a b => a.2 ≤ b.1) st.cycles) :
    (∀ c ∈ (refresh_data h st).cycles, c.2 ≤ (refresh_data h st).now) ∧
    List.Pairwise (fun a b => a.2 ≤ b.1) (refresh_data h st).cycles := by
  unfold refresh_data
  by_cases hauto : st.auto_refresh = false
  · rw [if_pos hauto]
    exact ⟨h1, h2⟩
  · rw [if_neg hauto]
    rcases hr : read_system_data h (st.now, []) with ⟨r, s⟩
    have hmono : st.now ≤ s.1 := by
      have hsnd := read_system_data_snd h (st.now, [])
      rw [hr] at hsnd
      have hs1 : s.1 = (collectE h (st.now, [])).2.1 := by rw [← hsnd]
      rw [hs1]
      exact collectE_clock_mono h st.now []
    have hall : ∀ c ∈ st.cycles ++ [(st.now, s.1)], c.2 ≤ s.1 := by
      intro c hc
      rcases List.mem_append.mp hc with hold | hnew
      · exact le_trans (h1 c hold) hmono
      · rw [List.mem_singleton] at hnew
        subst hnew
        exact le_refl _
    have hpw : List.Pairwise (fun a b => a.2 ≤ b.1) (st.cycles ++ [(st.now, s.1)]) := by
      rw [List.pairwise_append]
      refine ⟨h2, List.pairwise_singleton _ _, ?_⟩
      intro a ha b hb
      rw [List.mem_singleton] at hb
      subst hb
      exact h1 a ha
    cases r with
    | ok sd => exact ⟨hall, hpw⟩
    | error e => exact ⟨hall, hpw⟩

theorem handle_cycles_inv (h : Host) (st : LoopState) (e : Ev)
    (h1 : ∀ c ∈ st.cycles, c.2 ≤ st.now)
    (h2 : List.Pairwise (fun a b => a.2 ≤ b.1) st.cycles) :
    (∀ c ∈ (handle h st e).cycles, c.2 ≤ (handle h st e).now) ∧
    List.Pairwise (fun a b => a.2 ≤ b.1) (handle h st e).cycles := by
  cases e with
  | timer => exact refresh_data_cycles_inv h st h1 h2
  | manual => exact refresh_data_cycles_inv h st h1 h2
  | toggle => exact ⟨h1, h2⟩

theorem runLoop_cycles_sequential (h : Host) :
    ∀ (sched : List (Nat × Ev)) (st : LoopState),
    (∀ c ∈ st.cycles, c.2 ≤ st.now) →
    List.Pairwise (fun a b => a.2 ≤ b.1) st.cycles →
    List.Pairwise (fun a b => a.2 ≤ b.1) (runLoop h sched st).cycles := by
  intro sched
  induction sched with
  | nil =>
    intro st h1 h2
    exact h2
  | cons ev rest ih =>
    obtain ⟨arr, e⟩ := ev
    intro st h1 h2
    have h1m : ∀ c ∈ ({ st with now := max st.now arr } : LoopState).cycles,
        c.2 ≤ ({ st with now := max st.now arr } : LoopState).now := by
      intro c hc
      exact le_trans (h1 c hc) (le_max_left _ _)
    obtain ⟨ha, hb⟩ := handle_cycles_inv h { st with now := max st.now arr } e h1m h2
    exact ih _ ha hb

theorem refresh_data_publish (h : Host) (hwf : wfHost h) (st : LoopState)
    (hauto : st.auto_refresh = true) :
    (refresh_data h st).published.length = st.published.length + 1 ∧
    (refresh_data h st).auto_refresh = true := by
  unfold refresh_data
  have hne : ¬ (st.auto_refresh = false) := by
    rw [hauto]
    decide
  rw [if_neg hne]
  obtain ⟨sd, hread⟩ := read_system_data_isOk_of_wf h hwf (st.now, [])
  rw [hread]
  constructor
  · simp
  · exact hauto

theorem runLoop_publish_count (h : Host) (hwf : wfHost h) :
    ∀ (sched : List (Nat × Ev)) (st : LoopState),
    (∀ p ∈ sched, p.2 ≠ Ev.toggle) → st.auto_refresh = true →
    (runLoop h sched st).published.length = st.published.length + sched.length := by
  intro sched
  induction sched with
  | nil =>
    intro st _ _
    simp [runLoop]
  | cons ev rest ih =>
    obtain ⟨arr, e⟩ := ev
    intro st hnt hauto
    have hne : e ≠ Ev.toggle := hnt (arr, e) (List.mem_cons_self _ _)
    have hstep : (handle h { st with now := max st.now arr } e).published.length =
        st.published.length + 1 ∧
        (handle h { st with now := max st.now arr } e).auto_refresh = true := by
      cases e with
      | toggle => exact absurd rfl hne
      | timer => exact refresh_data_publish h hwf _ hauto
      | manual => exact refresh_data_publish h hwf _ hauto
    have hrest := ih (handle h { st with now := max st.now arr } e)
      (fun p hp => hnt p (List.mem_cons_of_mem _ hp)) hstep.2
    calc (runLoop h ((arr, e) :: rest) st).published.length
        = (handle h { st with now := max st.now arr } e).published.length + rest.length :=
          hrest
      _ = st.published.length + 1 + rest.length := by rw [hstep.1]
      _ = st.published.length + ((arr, e) :: rest).length := by
          rw [List.length_cons]
          omega

/-- Claim C1 (code bug): in any state with `auto_refresh` disabled, the
manual-refresh action (`action_refresh`, key `r`) is a complete no-op —
`refresh_data` returns at its opening guard before collecting — exactly like
a timer fire; no collection runs and no Snapshot is produced, contradicting
the binding's documented intent ("Refresh Data") and the spec. -/
theorem manual_refresh_gated_by_auto_flag (h : Host) (st : LoopState)
    (hoff : st.auto_refresh = false) :
    handle h st Ev.manual = st ∧ handle h st Ev.timer = st := by
  have hr : refresh_data h st = st := by
    unfold refresh_data
    rw [if_pos hoff]
  exact ⟨hr, hr⟩

/-- Witness for C1: the concrete disabled state is left untouched by key `r`. -/
theorem manual_refresh_gated_witness :
    handle host0 ⟨5, false, [], [], []⟩ Ev.manual = ⟨5, false, [], [], []⟩ ∧
    handle host0 ⟨5, false, [], [], []⟩ Ev.timer = ⟨5, false, [], [], []⟩ :=
  manual_refresh_gated_by_auto_flag host0 ⟨5, false, [], [], []⟩ rfl

/-- Claim C2, amended: at most one `collect()` is in flight at any time — the
collect windows of any run are sequential (pairwise ordered and disjoint),
because each handler runs the blocking collection to completion on the
single-threaded event loop — but an overlapping trigger is deferred, not
dropped: with auto-refresh on and no toggles, every trigger runs its own
cycle afterwards, so `n` triggers publish `n` snapshots. -/
theorem collect_serialized_and_deferred (h : Host) (sched : List (Nat × Ev))
    (hwf : wfHost h) (hnt : ∀ p ∈ sched, p.2 ≠ Ev.toggle) :
    List.Pairwise (fun a b => a.2 ≤ b.1) (runLoop h sched initState).cycles ∧
    (runLoop h sched initState).published.length = sched.length := by
  constructor
  · exact runLoop_cycles_sequential h sched initState
      (fun c hc => absurd hc (List.not_mem_nil c)) List.Pairwise.nil
  · have hcount := runLoop_publish_count h hwf sched initState hnt rfl
    simpa [initState] using hcount

/-- Counterexample to C2 as stated: the second manual trigger arrives at
instant 5, strictly inside the first collect window [0, 20), yet it is not
dropped — the run performs a second collection afterwards and publishes two
snapshots, not one. -/
theorem overlapping_trigger_not_dropped :
    (runLoop host0 [(0, Ev.manual), (5, Ev.manual)] initState).cycles =
      [(0, 20), (20, 40)] ∧
    (5 : Nat) < 20 ∧
    (runLoop host0 [(0, Ev.manual), (5, Ev.manual)] initState).published.length = 2 ∧
    (runLoop host0 [(0, Ev.manual), (5, Ev.manual)] initState).published.length ≠ 1 := by
  refine ⟨by decide, by decide, by decide, by decide⟩

/-- Witness for the amended C2 on the concrete overlapping schedule. -/
theorem collect_serialized_witness :
    List.Pairwise (fun a b => a.2 ≤ b.1)
      (runLoop host0 [(0, Ev.manual), (5, Ev.manual)] initState).cycles ∧
    (runLoop host0 [(0, Ev.manual), (5, Ev.manual)] initState).published.length = 2 :=
  collect_serialized_and_deferred host0 [(0, Ev.manual), (5, Ev.manual)]
    ⟨⟨"127.0.1.1", rfl⟩, ⟨_, rfl⟩⟩ (by decide)
